import Mathlib

/-!
# Verification of the agent-orchestrator DAG execution engine

Shallow embedding of the core of `src/app/orchestrator.py`, `src/app/main.py`
and the bundled agents (`src/app/agents/*.py`), together with theorems that
settle the frozen claims about the natural-language specification.

Modelling conventions:
* Python values (JSON-like data passed between nodes) are modelled by `Val`.
  Python `int` and `float` are both modelled as exact rationals.
* Python dictionaries are modelled as association lists with string keys,
  with `dictInsert` preserving the position of an existing key, matching
  insertion-order semantics of `dict`.
* The `asyncio` concurrency of one wave is collapsed to a deterministic fold:
  each task launched in a wave reads the `results` table as of the start of
  the wave, which is faithful because a runnable node only reads the entries
  of its predecessors, all of which finished in strictly earlier waves.
* An agent invocation is modelled by its observable outcome (`CallOutcome`):
  it returns a value, raises, or exceeds the configured timeout.  A run is
  parametrised by a `behavior` function giving the outcome of each call; the
  attempt index argument exists so that retry policies are expressible, and
  the embedded executor consults index 0 only, exactly as the source makes a
  single call.
-/

/-- JSON-like Python value.  Numbers (`int` and `float`) are modelled as exact
rationals; container values are lists and string-keyed dictionaries. -/
inductive Val where
  | vNum (q : ℚ)
  | vStr (s : String)
  | vBool (b : Bool)
  | vNull
  | vList (items : List Val)
  | vDict (entries : List (String × Val))

/-- Python `d.get(k)`: first binding of `k` in the association list. -/
def dictGet : List (String × Val) → String → Option Val
  | [], _ => none
  | p :: rest, k => if p.1 == k then some p.2 else dictGet rest k

/-- Python `d[k] = v`: replace the value at an existing key in place (keeping its
position, as Python dicts do) or append a fresh binding at the end. -/
def dictInsert : List (String × Val) → String → Val → List (String × Val)
  | [], k, v => [(k, v)]
  | p :: rest, k, v => if p.1 == k then (k, v) :: rest else p :: dictInsert rest k v

/-- Python `d.update(e)`: fold the bindings of `e` into `d` in order. -/
def dictUpdate (d e : List (String × Val)) : List (String × Val) :=
  e.foldl (fun acc p => dictInsert acc p.1 p.2) d

/-- Python truthiness of a value (`if not x`). -/
def valTruthy : Val → Bool
  | .vNum q => !(q == 0)
  | .vStr s => !(s == "")
  | .vBool b => b
  | .vNull => false
  | .vList items => !items.isEmpty
  | .vDict entries => !entries.isEmpty

/-- Observable outcome of one awaited agent call: the agent returned a value,
the agent (or the calling convention) raised with a message, or the call did
not complete within the configured timeout (`asyncio.TimeoutError`). -/
inductive CallOutcome where
  | ok (v : Val)
  | raises (msg : String)
  | timesOut

/-- The wrapper `AgentWrapper.run` (orchestrator.py lines 31-71): awaits the wrapped agent
once under `asyncio.wait_for`; a `TimeoutError` is re-raised as
`Exception(f"Agent {name} timed out after {timeout} seconds")`, any other
exception as `Exception(f"Agent {name} failed: {cause}")`. -/
def agentWrapperRun (name : String) (timeout : Int) (outcome : CallOutcome) :
    Except String Val :=
  match outcome with
  | .ok v => .ok v
  | .raises msg => .error ("Agent " ++ name ++ " failed: " ++ msg)
  | .timesOut =>
      .error ("Agent " ++ name ++ " timed out after " ++ toString timeout ++ " seconds")

/-- Number of times `AgentWrapper.run` awaits the wrapped agent for one
invocation: the body contains a single `await asyncio.wait_for(...)` and no
retry loop, so the count is 1 for every outcome. -/
def wrapperAttempts (_outcome : CallOutcome) : Nat := 1

/-- The `NodeStatus` enum (orchestrator.py lines 7-11). -/
inductive NodeStatus where
  | PENDING
  | RUNNING
  | COMPLETED
  | FAILED
deriving DecidableEq, Repr

/-- One permitted status transition of a node record: stay put, start running,
or move from running to a terminal status (`Pending -> Running -> Completed`
or `Pending -> Running -> Failed`). -/
def statusStep : NodeStatus → NodeStatus → Bool
  | a, b =>
    (a == b) ||
    (a == .PENDING && b == .RUNNING) ||
    (a == .RUNNING && (b == .COMPLETED || b == .FAILED))

/-- Node definition as submitted to `Orchestrator.run`: id, agent-type tag and
static parameters.  `agent` is an `Option` because `_execute_node` reads it
with `node_def.get("agent")` and treats a missing (or falsy, i.e. empty) value
as a configuration error. -/
structure NodeDef where
  id : String
  agent : Option String
  params : List (String × Val)

/-- Edge `{from_, to}`: the destination (field `to` in the source, here
`dst`) depends on the source `from_` (main.py lines 57-59). -/
structure Edge where
  from_ : String
  dst : String

/-- The `NodeExecution` record (orchestrator.py lines 13-20). -/
structure NodeRec where
  id : String
  status : NodeStatus
  result : Option Val
  error : Option String
  retries : Nat
  dependsOn : List String

/-- Constructor arguments of `Orchestrator.__init__` (orchestrator.py lines
76-83).  `maxConcurrent` is used only to build `asyncio.Semaphore
(max_concurrent)`; `maxRetries` is stored in `self.max_retries`. -/
structure OrchConfig where
  maxConcurrent : Nat
  maxRetries : Nat
  timeout : Int

/-- The state `Orchestrator.__init__` builds: the semaphore holds the
configured capacity and the retry/timeout settings are stored.  Nothing in
the dispatch loop ever acquires the semaphore or reads `max_retries`. -/
structure OrchestratorInitState where
  semaphoreCapacity : Nat
  maxRetries : Nat
  timeout : Int

/-- Constructor `Orchestrator.__init__`. -/
def orchestratorInit (cfg : OrchConfig) : OrchestratorInitState :=
  { semaphoreCapacity := cfg.maxConcurrent
    maxRetries := cfg.maxRetries
    timeout := cfg.timeout }

/-- Per-call behavior of the agents during a run: node id, input mapping and
attempt index to the outcome of that call.  The attempt index lets retrying
policies be stated; the embedded executor only ever consults attempt 0. -/
def Behavior : Type :=
  String → List (String × Val) → Nat → CallOutcome

/-- Everything `_execute_node` does to one node, observably: the final record
fields it writes, the value it returns or the exception it raises (`ret`), and
instrumentation of the calls it makes: how many times the agent wrapper was
invoked and which backoff sleeps were performed between attempts. -/
structure ExecOutcome where
  status : NodeStatus
  result : Option Val
  error : Option String
  retries : Nat
  ret : Except String Val
  attemptsMade : Nat
  backoffWaits : List Nat

/-- The envelope unwrapping of `_execute_node` lines 248-251: a dict payload
containing key `result` is replaced by the value under `result`; any other
payload is passed through unchanged. -/
def unwrapResult : Val → Val
  | Val.vDict kvs =>
      (match dictGet kvs "result" with
       | some inner => inner
       | none => Val.vDict kvs)
  | other => other

/-- One step of the predecessor loop of `_execute_node` (lines 246-251): a
predecessor absent from `results` is skipped; a present one is bound (with
one level of `result`-envelope unwrapping, `unwrapResult`) under its own id. -/
def depBind (results : List (String × Val)) (acc : List (String × Val))
    (depId : String) : List (String × Val) :=
  match dictGet results depId with
  | none => acc
  | some w => dictInsert acc depId (unwrapResult w)

/-- Input-mapping construction of `_execute_node` (orchestrator.py lines
244-257): copy of the initial inputs; then for each predecessor id present in
the shared `results` table, bind the predecessor id to that entry, unwrapping
one level when the entry is a dict containing key `result`; finally overlay
the node parameters with `input_data.update(params)`. -/
def buildInput (initialInputs : List (String × Val)) (dependsOn : List String)
    (results : List (String × Val)) (params : List (String × Val)) :
    List (String × Val) :=
  dictUpdate (dependsOn.foldl (depBind results) initialInputs) params

/-- The executor `_execute_node` (orchestrator.py lines 227-285).  Sets the record to
RUNNING, validates the agent-type field, builds the input mapping, performs a
single wrapped agent call (there is no retry loop, no backoff sleep, and the
`retries` counter is never incremented), then either completes the record and
returns the result envelope (keys `result`, `node_id`, `agent_type`), or fails the
record and raises the exception `Error in node <node_id>: <cause>`. -/
def executeNode (agents : List String) (timeout : Int) (behavior : Behavior)
    (nodeId : String) (nodeDef : NodeDef) (dependsOn : List String)
    (initialInputs : List (String × Val)) (results : List (String × Val)) :
    ExecOutcome :=
  let configError := fun (msg : String) =>
    { status := .FAILED, result := none, error := some msg, retries := 0
      ret := .error ("Error in node " ++ nodeId ++ ": " ++ msg)
      attemptsMade := 0, backoffWaits := [] : ExecOutcome }
  match nodeDef.agent with
  | none => configError ("Node " ++ nodeId ++ " is missing agent field")
  | some agentType =>
    if agentType == "" then
      configError ("Node " ++ nodeId ++ " is missing agent field")
    else if !(agents.contains agentType) then
      configError ("Agent type " ++ agentType ++ " not found in registered agents")
    else
      let inputData := buildInput initialInputs dependsOn results nodeDef.params
      match agentWrapperRun agentType timeout (behavior nodeId inputData 0) with
      | .ok v =>
          { status := .COMPLETED, result := some v, error := none, retries := 0
            ret := .ok (Val.vDict
              [("result", v), ("node_id", Val.vStr nodeId),
               ("agent_type", Val.vStr agentType)])
            attemptsMade := 1, backoffWaits := [] }
      | .error msg =>
          { status := .FAILED, result := none, error := some msg, retries := 0
            ret := .error ("Error in node " ++ nodeId ++ ": " ++ msg)
            attemptsMade := 1, backoffWaits := [] }

/-- The sequence of statuses written to a node record along one execution:
`PENDING` at creation, `RUNNING` at the start of `_execute_node`, the terminal
status the executor writes, and — when the executor raises — the extra
`FAILED` write of the drain loop of `Orchestrator.run` (line 210). -/
def execStatusHistory (o : ExecOutcome) : List NodeStatus :=
  NodeStatus.PENDING :: NodeStatus.RUNNING :: o.status ::
    (match o.ret with
     | .ok _ => []
     | .error _ => [NodeStatus.FAILED])

/-- Fixed per-run context of the dispatch loop in `Orchestrator.run`:
registered agent names, configured per-call timeout, the agents behavior,
node-definition lookup, predecessor sets, and the runs initial inputs. -/
structure RunCtx where
  agents : List String
  timeout : Int
  behavior : Behavior
  nodeOf : String → Option NodeDef
  deps : String → List String
  initialInputs : List (String × Val)

/-- The set `runnable = [n for n in pending if deps(n) ⊆ completed]`
(orchestrator.py lines 170-174). -/
def runnableOf (deps : String → List String) (pending completed : List String) :
    List String :=
  pending.filter (fun n => (deps n).all (fun d => completed.contains d))

/-- The blocked-node report built when a deadlock is detected (orchestrator.py
lines 180-188): every pending node whose set of missing predecessors is
non-empty, paired with those missing predecessor ids. -/
def blockedOf (deps : String → List String) (pending completed : List String) :
    List (String × List String) :=
  (pending.map (fun n => (n, (deps n).filter (fun d => !(completed.contains d))))).filter
    (fun p => !p.2.isEmpty)

/-- The executor outcome for one node of a wave.  `results` is the shared
results table as of the start of the wave: a runnable node only reads entries
of its own predecessors, each of which finished in a strictly earlier wave,
so the snapshot view is faithful to the concurrent execution. -/
def nodeOutcome (ctx : RunCtx) (results : List (String × Val)) (n : String) :
    ExecOutcome :=
  executeNode ctx.agents ctx.timeout ctx.behavior n
    ((ctx.nodeOf n).getD { id := n, agent := none, params := [] })
    (ctx.deps n) ctx.initialInputs results

/-- Effect of the drain loop of `Orchestrator.run` (lines 201-214) on the
record of one finished node: the record already carries the fields written by
`_execute_node`; when the task raised, the drain loop additionally writes
`FAILED` and the raised message. -/
def drainRec (r : NodeRec) (o : ExecOutcome) : NodeRec :=
  let r1 := { r with status := o.status, result := o.result,
                     error := o.error, retries := o.retries }
  match o.ret with
  | .ok _ => r1
  | .error m => { r1 with status := .FAILED, error := some m }

/-- The entry the drain loop stores in `results` for one finished node: the
returned envelope on success, an error mapping (key `error`, value the
raised message) when the task
raised. -/
def drainResult (o : ExecOutcome) : Val :=
  match o.ret with
  | .ok env => env
  | .error m => Val.vDict [("error", Val.vStr m)]

/-- Pointwise update of the execution-record table at one node id. -/
def updRec (recs : String → NodeRec) (n : String) (r : NodeRec) :
    String → NodeRec :=
  fun x => if x == n then r else recs x

/-- Record-table evolution across one wave: each finished node record is
rewritten by its own executor task (and drain step). -/
def waveRecs (ctx : RunCtx) (results0 : List (String × Val))
    (recs : String → NodeRec) (wave : List String) : String → NodeRec :=
  wave.foldl (fun rc n => updRec rc n (drainRec (rc n) (nodeOutcome ctx results0 n))) recs

/-- Results-table evolution across one wave: one entry per finished node,
success or failure. -/
def waveResults (ctx : RunCtx) (results0 : List (String × Val))
    (wave : List String) : List (String × Val) :=
  wave.foldl (fun res n => dictInsert res n (drainResult (nodeOutcome ctx results0 n))) results0

/-- Observable outcome of `Orchestrator.run`: `deadlocked = some blocked` when
the deadlock exception was raised (with the blocked-node report), the final
record table, the shared results table, and the trace of dispatched waves. -/
structure RunOutcome where
  deadlocked : Option (List (String × List String))
  recs : String → NodeRec
  results : List (String × Val)
  waves : List (List String)

/-- The `while pending:` dispatch loop of `Orchestrator.run` (lines 166-214).
`fuel` is only a structural-termination device: every iteration removes at
least one node from `pending`, so any `fuel > pending.length` behaves as the
unbounded loop (the entry point supplies `pending.length + 1`). -/
def runLoop (ctx : RunCtx) :
    Nat → List String → List String → List (String × Val) → (String → NodeRec) →
    List (List String) → RunOutcome
  | 0, _, _, results, recs, waves =>
      { deadlocked := none, recs := recs, results := results, waves := waves }
  | fuel + 1, pending, completed, results, recs, waves =>
    if pending.isEmpty then
      { deadlocked := none, recs := recs, results := results, waves := waves }
    else
      let runnable := runnableOf ctx.deps pending completed
      if runnable.isEmpty then
        { deadlocked := some (blockedOf ctx.deps pending completed)
          recs := recs, results := results, waves := waves }
      else
        runLoop ctx fuel
          (pending.filter (fun n => !(runnable.contains n)))
          (completed ++ runnable)
          (waveResults ctx results runnable)
          (waveRecs ctx results recs runnable)
          (waves ++ [runnable])

/-- Predecessor sets from the flat edge list (orchestrator.py lines 148-159):
the distinct sources of edges whose destination is the node. -/
def depsOf (edges : List Edge) (n : String) : List String :=
  ((edges.filter (fun e => e.dst == n)).map (fun e => e.from_)).dedup

/-- Initial record table: one `PENDING` record per node carrying its
(immutable) predecessor set. -/
def initRecs (deps : String → List String) : String → NodeRec :=
  fun n => { id := n, status := .PENDING, result := none, error := none,
             retries := 0, dependsOn := deps n }

/-- The driver `Orchestrator.run` (lines 126-225): build predecessor sets, seed
`pending` with every node id, `completed = ∅`, `results = {}`, then drive the
wave loop.  Note the loop state never consults `cfg.maxConcurrent` (the
semaphore is never acquired) nor `cfg.maxRetries`. -/
def orchestratorRun (cfg : OrchConfig) (agents : List String)
    (behavior : Behavior) (nodes : List NodeDef) (edges : List Edge)
    (initialInputs : List (String × Val)) : RunOutcome :=
  let nodeIds := (nodes.map (fun nd => nd.id)).dedup
  let ctx : RunCtx :=
    { agents := agents, timeout := cfg.timeout, behavior := behavior
      nodeOf := fun i => (nodes.reverse).find? (fun nd => nd.id == i)
      deps := depsOf edges
      initialInputs := initialInputs }
  runLoop ctx (nodeIds.length + 1) nodeIds [] [] (initRecs (depsOf edges)) []

/-- The entry point `execute_workflow` (main.py lines 75-106): run the orchestrator; when it
returns, store the per-node results and set the run status `COMPLETED`; when
it raises (deadlock, or any other run-level exception), set the run status
`FAILED`.  Individual node failures do not raise out of `Orchestrator.run`,
so they never reach the `except` branch. -/
def executeWorkflow (cfg : OrchConfig) (agents : List String)
    (behavior : Behavior) (nodes : List NodeDef) (edges : List Edge)
    (initialInputs : List (String × Val)) : String × RunOutcome :=
  let out := orchestratorRun cfg agents behavior nodes edges initialInputs
  (if out.deadlocked.isSome then "FAILED" else "COMPLETED", out)

/-- The wave schedule of a run, as a pure function of the dependency relation
and of the pending/completed sets: the same loop as `runLoop`, stripped of the
record/result bookkeeping.  Agent outcomes cannot influence it, because the
drain loop moves every finished node from `pending` to `completed` whether it
succeeded or failed. -/
def schedule (deps : String → List String) :
    Nat → List String → List String →
    List (List String) × Option (List (String × List String))
  | 0, _, _ => ([], none)
  | fuel + 1, pending, completed =>
    if pending.isEmpty then ([], none)
    else
      let runnable := runnableOf deps pending completed
      if runnable.isEmpty then ([], some (blockedOf deps pending completed))
      else
        let rest := schedule deps fuel
          (pending.filter (fun n => !(runnable.contains n)))
          (completed ++ runnable)
        (runnable :: rest.1, rest.2)

/-- Here `done` is the set of nodes finished before the first listed wave; each
wave may only contain nodes all of whose predecessors are already done, and
contributes its nodes to `done` for the following waves (the cross-wave
barrier). -/
def wavesRespectDeps (deps : String → List String) :
    List String → List (List String) → Bool
  | _, [] => true
  | done, w :: ws =>
      w.all (fun n => (deps n).all (fun d => done.contains d)) &&
      wavesRespectDeps deps (done ++ w) ws

/-- Numeric view of a Python value for arithmetic: `int`/`float` (here exact
rationals) and `bool` (which Python treats as an integer) are numeric; other
operand types make the arithmetic raise `TypeError`.  (Pythons exotic
coercions such as sequence repetition by `int *` are outside the model; no
theorem depends on them.) -/
def asNum : Val → Option ℚ
  | .vNum q => some q
  | .vBool b => some (if b then 1 else 0)
  | _ => none

/-- The arithmetic `Calculator._calculate` (calculator.py lines 29-57).  Empty value list
gives 0 before the operation is even inspected; `divide` raises on a zero
divisor; an unrecognised operation raises `ValueError`. -/
def calcCalculate (operation : Val) (values : List Val) : Except String Val :=
  if values.isEmpty then .ok (Val.vNum 0)
  else
    match operation with
    | .vStr op =>
      if op == "add" then
        (values.foldlM
          (fun acc v => match asNum v with
            | some q => Except.ok (acc + q)
            | none => Except.error "unsupported operand type for add") (0 : ℚ)).map Val.vNum
      else if op == "multiply" then
        (values.foldlM
          (fun acc v => match asNum v with
            | some q => Except.ok (acc * q)
            | none => Except.error "unsupported operand type for multiply") (1 : ℚ)).map Val.vNum
      else if op == "subtract" then
        if values.length < 2 then .ok (Val.vNum 0)
        else
          match values with
          | [] => .ok (Val.vNum 0)
          | v0 :: rest =>
            match asNum v0 with
            | none => .error "unsupported operand type for subtract"
            | some q0 =>
              (rest.foldlM
                (fun acc v => match asNum v with
                  | some q => Except.ok (acc - q)
                  | none => Except.error "unsupported operand type for subtract") q0).map Val.vNum
      else if op == "divide" then
        if values.length < 2 then .ok (Val.vNum 0)
        else
          match values with
          | [] => .ok (Val.vNum 0)
          | v0 :: rest =>
            match asNum v0 with
            | none => .error "unsupported operand type for divide"
            | some q0 =>
              (rest.foldlM
                (fun acc v =>
                  match asNum v with
                  | some q =>
                      if q == 0 then Except.error "Division by zero"
                      else Except.ok (acc / q)
                  | none => Except.error "unsupported operand type for divide") q0).map Val.vNum
      else .error ("Unsupported operation: " ++ op)
    | _ => .error "Unsupported operation"

/-- The value-reference resolution loop of `Calculator.run` (calculator.py
lines 13-21): a string element naming a key of `inputs` is replaced by that
entry, unwrapped one level when it is a dict containing `result`. -/
def resolveRef (inputs : List (String × Val)) (v : Val) : Val :=
  match v with
  | .vStr s =>
    match dictGet inputs s with
    | some (Val.vDict kvs) =>
        match dictGet kvs "result" with
        | some inner => inner
        | none => Val.vDict kvs
    | some other => other
    | none => Val.vStr s
  | other => other

/-- Rough Python type tag of a value, used for AttributeError messages. -/
def pyTypeName : Val → String
  | .vNum _ => "number"
  | .vStr _ => "str"
  | .vBool _ => "bool"
  | .vNull => "NoneType"
  | .vList _ => "list"
  | .vDict _ => "dict"

/-- The body of `Calculator.run` (calculator.py lines 5-27) as invoked
directly with its single `inputs` parameter.  (Through `AgentWrapper.run` the
call never reaches this body: see `calculatorAgentCall`.)  The first line
`inputs.get(inputs.get("parent")).get("operation")` raises `AttributeError`
unless the `parent` entry of `inputs` names a key of `inputs` holding a
dict. -/
def calculatorBody (inputs : List (String × Val)) : CallOutcome :=
  let target : Option Val :=
    match dictGet inputs "parent" with
    | some (Val.vStr s) => dictGet inputs s
    | _ => none
  match target with
  | none => .raises "NoneType object has no attribute get"
  | some (Val.vDict kvs) =>
    let operation := (dictGet kvs "operation").getD Val.vNull
    let values := (dictGet inputs "values").getD (Val.vList [])
    let valuesIsList := match values with | Val.vList _ => true | _ => false
    if !(valTruthy operation) || !valuesIsList then
      .ok (Val.vDict [("error", Val.vStr "Missing or invalid operation/values")])
    else
      match values with
      | Val.vList vs =>
        let resolved := vs.map (resolveRef inputs)
        match calcCalculate operation resolved with
        | .ok r => .ok (Val.vDict [("result", r)])
        | .error m => .raises m
      | _ => .ok (Val.vDict [("error", Val.vStr "Missing or invalid operation/values")])
  | some other => .raises (pyTypeName other ++ " object has no attribute get")

/-- Invoking the registered calculator agent through `AgentWrapper.run`: the
wrapper calls `self.agent.run(conf=conf, inputs=inputs, ctx=ctx)`
(orchestrator.py line 55) while `Calculator.run` declares only the single
parameter `inputs` (calculator.py line 5), so the call raises `TypeError`
before the method body runs, whatever the input mapping is. -/
def calculatorAgentCall (_conf : List (String × Val)) : CallOutcome :=
  .raises "run() got an unexpected keyword argument conf"

/-- The body of `DataFetcher.run` (data_fetcher.py lines 5-15).  A missing or falsy
`url` entry of `conf` returns the `error` mapping without raising; otherwise the body
performs an HTTP GET, modelled by the `http` parameter (the claims only
exercise the missing-url branch). -/
def dataFetcherBody (http : String → CallOutcome)
    (conf _inputs : List (String × Val)) : CallOutcome :=
  let url := (dictGet conf "url").getD Val.vNull
  if !(valTruthy url) then
    .ok (Val.vDict [("error", Val.vStr "missing url")])
  else
    match url with
    | .vStr s => http s
    | other => .raises (pyTypeName other ++ " is not a valid url type")

/-- The body of `ChartGenerator.run` (chart_generator.py lines 6-34).  Scans the values of
`inputs` for a dict containing the configured key; when none is found it
returns the `error` mapping; a non-numeric value returns the other `error`
mapping; the matplotlib-rendering success path is modelled by the `render`
parameter (the claims only exercise the error branches).  Numeric-string
parsing by `float(...)` is not modelled. -/
def chartGeneratorBody (render : ℚ → CallOutcome)
    (conf inputs : List (String × Val)) : CallOutcome :=
  let key := (dictGet conf "input_key").getD (Val.vStr "result")
  let found : Option Val :=
    match key with
    | .vStr s =>
        ((inputs.map (fun p => p.2)).find?
          (fun v => match v with
            | Val.vDict kvs => (dictGet kvs s).isSome
            | _ => false)).bind
          (fun v => match v with
            | Val.vDict kvs => dictGet kvs s
            | _ => none)
    | _ => none
  match found with
  | none => .ok (Val.vDict [("error", Val.vStr "input key not found")])
  | some v =>
    match asNum v with
    | some q => render q
    | none => .ok (Val.vDict [("error", Val.vStr "input not numeric")])

/-! ## Association-list (Python dict) lemmas -/

theorem dictGet_insert_self (d : List (String × Val)) (k : String) (v : Val) :
    dictGet (dictInsert d k v) k = some v := by
  induction d with
  | nil => simp [dictInsert, dictGet]
  | cons p rest ih =>
    by_cases hp : p.1 = k
    · simp [dictInsert, dictGet, hp]
    · have hp' : (p.1 == k) = false := by simp [hp]
      simp [dictInsert, dictGet, hp', ih]

theorem dictGet_insert_ne (d : List (String × Val)) (k k2 : String) (v : Val)
    (h : k ≠ k2) : dictGet (dictInsert d k2 v) k = dictGet d k := by
  have hkk : (k2 == k) = false := by simp [Ne.symm h]
  induction d with
  | nil => simp [dictInsert, dictGet, hkk]
  | cons p rest ih =>
    by_cases hp : p.1 = k2
    · have hpk : (p.1 == k) = false := by simp [hp, Ne.symm h]
      simp [dictInsert, dictGet, hp, hkk, hpk]
    · have hp' : (p.1 == k2) = false := by simp [hp]
      by_cases hpk : p.1 = k
      · simp [dictInsert, dictGet, hp', hpk, h]
      · have hpk' : (p.1 == k) = false := by simp [hpk]
        simp [dictInsert, dictGet, hp', hpk', ih]

theorem dictGet_update_notmem (d e : List (String × Val)) (k : String)
    (h : ∀ p ∈ e, p.1 ≠ k) : dictGet (dictUpdate d e) k = dictGet d k := by
  induction e generalizing d with
  | nil => simp [dictUpdate]
  | cons p rest ih =>
    have h1 : p.1 ≠ k := h p (by simp)
    have h2 : ∀ q ∈ rest, q.1 ≠ k := fun q hq => h q (by simp [hq])
    simp only [dictUpdate, List.foldl_cons]
    have hrec := ih (dictInsert d p.1 p.2) h2
    simp only [dictUpdate] at hrec
    rw [hrec, dictGet_insert_ne _ _ _ _ (Ne.symm h1)]

theorem dictGet_update_mem (d e : List (String × Val)) (k : String) (v : Val)
    (hnd : (e.map Prod.fst).Nodup) (hmem : (k, v) ∈ e) :
    dictGet (dictUpdate d e) k = some v := by
  induction e generalizing d with
  | nil => simp at hmem
  | cons p rest ih =>
    simp only [List.map_cons, List.nodup_cons] at hnd
    rcases List.mem_cons.mp hmem with heq | hrest
    · subst heq
      have hnot : ∀ q ∈ rest, q.1 ≠ k := by
        intro q hq hcontra
        apply hnd.1
        have hq2 : q.1 ∈ List.map Prod.fst rest := List.mem_map_of_mem Prod.fst hq
        rwa [hcontra] at hq2
      simp only [dictUpdate, List.foldl_cons]
      have hrec := dictGet_update_notmem (dictInsert d k v) rest k hnot
      simp only [dictUpdate] at hrec
      rw [hrec]
      exact dictGet_insert_self d k v
    · simp only [dictUpdate, List.foldl_cons]
      exact ih (dictInsert d p.1 p.2) hnd.2 hrest

theorem depBind_other_key (results acc : List (String × Val)) (depId k : String)
    (h : depId ≠ k) : dictGet (depBind results acc depId) k = dictGet acc k := by
  unfold depBind
  cases dictGet results depId with
  | none => rfl
  | some w => exact dictGet_insert_ne _ _ _ _ (Ne.symm h)

theorem foldl_depBind_notmem (results : List (String × Val)) (deps : List String)
    (acc : List (String × Val)) (k : String) (h : ∀ d ∈ deps, d ≠ k) :
    dictGet (deps.foldl (depBind results) acc) k = dictGet acc k := by
  induction deps generalizing acc with
  | nil => rfl
  | cons d rest ih =>
    simp only [List.foldl_cons]
    rw [ih (depBind results acc d) (fun x hx => h x (by simp [hx])),
      depBind_other_key _ _ _ _ (h d (by simp))]

theorem foldl_depBind_hit (results : List (String × Val)) (deps : List String)
    (acc : List (String × Val)) (d : String) (w : Val)
    (hnd : deps.Nodup) (hmem : d ∈ deps) (hres : dictGet results d = some w) :
    dictGet (deps.foldl (depBind results) acc) d = some (unwrapResult w) := by
  induction deps generalizing acc with
  | nil => simp at hmem
  | cons x rest ih =>
    simp only [List.nodup_cons] at hnd
    rcases List.mem_cons.mp hmem with heq | hrest
    · subst heq
      have hnot : ∀ y ∈ rest, y ≠ d := fun y hy hc => hnd.1 (hc ▸ hy)
      simp only [List.foldl_cons]
      rw [foldl_depBind_notmem _ _ _ _ hnot]
      unfold depBind
      rw [hres]
      exact dictGet_insert_self acc d (unwrapResult w)
    · simp only [List.foldl_cons]
      exact ih (depBind results acc x) hnd.2 hrest

theorem foldl_depBind_miss (results : List (String × Val)) (deps : List String)
    (acc : List (String × Val)) (d : String)
    (hnd : deps.Nodup) (hmem : d ∈ deps) (hres : dictGet results d = none) :
    dictGet (deps.foldl (depBind results) acc) d = dictGet acc d := by
  induction deps generalizing acc with
  | nil => simp at hmem
  | cons x rest ih =>
    simp only [List.nodup_cons] at hnd
    rcases List.mem_cons.mp hmem with heq | hrest
    · subst heq
      have hnot : ∀ y ∈ rest, y ≠ d := fun y hy hc => hnd.1 (hc ▸ hy)
      simp only [List.foldl_cons]
      rw [foldl_depBind_notmem _ _ _ _ hnot]
      unfold depBind
      rw [hres]
    · simp only [List.foldl_cons]
      have hxd : x ≠ d := fun hc => hnd.1 (hc ▸ hrest)
      rw [ih (depBind results acc x) hnd.2 hrest]
      exact depBind_other_key _ _ _ _ hxd

/-! ## Scheduler lemmas -/

theorem updRec_self (recs : String → NodeRec) (n : String) (r : NodeRec) :
    updRec recs n r n = r := by simp [updRec]

theorem updRec_ne (recs : String → NodeRec) (n : String) (r : NodeRec)
    (x : String) (h : x ≠ n) : updRec recs n r x = recs x := by simp [updRec, h]

theorem waveRecs_notmem (ctx : RunCtx) (res : List (String × Val)) :
    ∀ (wave : List String) (recs : String → NodeRec) (x : String), x ∉ wave →
      waveRecs ctx res recs wave x = recs x := by
  intro wave
  induction wave with
  | nil => intro recs x _; rfl
  | cons n rest ih =>
    intro recs x h
    have hxn : x ≠ n := fun hc => h (hc ▸ List.mem_cons_self n rest)
    have hxr : x ∉ rest := fun hx => h (List.mem_cons_of_mem n hx)
    simp only [waveRecs, List.foldl_cons]
    have hrec := ih (updRec recs n (drainRec (recs n) (nodeOutcome ctx res n))) x hxr
    simp only [waveRecs] at hrec
    rw [hrec, updRec_ne _ _ _ _ hxn]

theorem waveRecs_mem (ctx : RunCtx) (res : List (String × Val)) :
    ∀ (wave : List String) (recs : String → NodeRec) (n : String),
      wave.Nodup → n ∈ wave →
      waveRecs ctx res recs wave n = drainRec (recs n) (nodeOutcome ctx res n) := by
  intro wave
  induction wave with
  | nil => intro recs n _ h; simp at h
  | cons x rest ih =>
    intro recs n hnd hmem
    simp only [List.nodup_cons] at hnd
    simp only [waveRecs, List.foldl_cons]
    rcases List.mem_cons.mp hmem with heq | hrest
    · subst heq
      have hrec := waveRecs_notmem ctx res rest
        (updRec recs n (drainRec (recs n) (nodeOutcome ctx res n))) n hnd.1
      simp only [waveRecs] at hrec
      rw [hrec, updRec_self]
    · have hxn : n ≠ x := fun hc => hnd.1 (hc ▸ hrest)
      have hrec := ih (updRec recs x (drainRec (recs x) (nodeOutcome ctx res x))) n hnd.2 hrest
      simp only [waveRecs] at hrec
      rw [hrec, updRec_ne _ _ _ _ hxn]

theorem executeNode_cases (agents : List String) (timeout : Int)
    (behavior : Behavior) (nodeId : String) (nodeDef : NodeDef)
    (dependsOn : List String) (ii res : List (String × Val)) :
    (∃ env, (executeNode agents timeout behavior nodeId nodeDef dependsOn ii res).ret
        = Except.ok env ∧
      (executeNode agents timeout behavior nodeId nodeDef dependsOn ii res).status
        = .COMPLETED) ∨
    (∃ m, (executeNode agents timeout behavior nodeId nodeDef dependsOn ii res).ret
        = Except.error m ∧
      (executeNode agents timeout behavior nodeId nodeDef dependsOn ii res).status
        = .FAILED) := by
  simp only [executeNode]
  repeat' split
  all_goals
    first
      | exact Or.inl ⟨_, rfl, rfl⟩
      | exact Or.inr ⟨_, rfl, rfl⟩

theorem nodeOutcome_cases (ctx : RunCtx) (res : List (String × Val)) (n : String) :
    (∃ env, (nodeOutcome ctx res n).ret = Except.ok env ∧
      (nodeOutcome ctx res n).status = .COMPLETED) ∨
    (∃ m, (nodeOutcome ctx res n).ret = Except.error m ∧
      (nodeOutcome ctx res n).status = .FAILED) := by
  unfold nodeOutcome
  exact executeNode_cases _ _ _ _ _ _ _ _

theorem drainRec_terminal (r : NodeRec) (o : ExecOutcome)
    (h : (∃ env, o.ret = Except.ok env ∧ o.status = .COMPLETED) ∨
      (∃ m, o.ret = Except.error m ∧ o.status = .FAILED)) :
    (drainRec r o).status = .COMPLETED ∨ (drainRec r o).status = .FAILED := by
  unfold drainRec
  rcases h with ⟨env, hret, hst⟩ | ⟨m, hret, hst⟩ <;> rw [hret] <;> simp [hst]

theorem pending_filter_lt (p runnable : List String) (hne : runnable ≠ [])
    (hsub : ∀ x ∈ runnable, x ∈ p) :
    (p.filter (fun n => !(runnable.contains n))).length < p.length := by
  rw [List.length_filter_lt_length_iff_exists]
  obtain ⟨x, hx⟩ := List.exists_mem_of_ne_nil runnable hne
  refine ⟨x, hsub x hx, ?_⟩
  simp [List.elem_eq_mem, hx]

theorem runLoop_sched (ctx : RunCtx) :
    ∀ (fuel : Nat) (p c : List String) (res : List (String × Val))
      (recs : String → NodeRec) (w : List (List String)),
      (runLoop ctx fuel p c res recs w).waves
        = w ++ (schedule ctx.deps fuel p c).1 ∧
      (runLoop ctx fuel p c res recs w).deadlocked
        = (schedule ctx.deps fuel p c).2 := by
  intro fuel
  induction fuel with
  | zero => intro p c res recs w; simp [runLoop, schedule]
  | succ fuel ih =>
    intro p c res recs w
    by_cases hp : p.isEmpty
    · simp [runLoop, schedule, hp]
    · by_cases hr : (runnableOf ctx.deps p c).isEmpty
      · simp [runLoop, schedule, hp, hr]
      · have hrec := ih (p.filter (fun n => !((runnableOf ctx.deps p c).contains n)))
          (c ++ runnableOf ctx.deps p c)
          (waveResults ctx res (runnableOf ctx.deps p c))
          (waveRecs ctx res recs (runnableOf ctx.deps p c))
          (w ++ [runnableOf ctx.deps p c])
        simp only [runLoop, schedule, hp, hr, if_false, Bool.false_eq_true]
        simp only [hrec.1, hrec.2, List.append_assoc, List.singleton_append, and_true]

theorem schedule_join_subset (deps : String → List String) :
    ∀ (fuel : Nat) (p c : List String) (x : String),
      x ∈ (schedule deps fuel p c).1.flatten → x ∈ p := by
  intro fuel
  induction fuel with
  | zero => intro p c x h; simp [schedule] at h
  | succ fuel ih =>
    intro p c x h
    by_cases hp : p.isEmpty
    · simp [schedule, hp] at h
    · by_cases hr : (runnableOf deps p c).isEmpty
      · simp [schedule, hp, hr] at h
      · simp only [schedule, hp, hr, if_false, Bool.false_eq_true,
          List.flatten_cons, List.mem_append] at h
        rcases h with hw | hrest
        · exact (List.mem_filter.mp hw).1
        · exact (List.mem_filter.mp (ih _ _ x hrest)).1

theorem schedule_join_nodup (deps : String → List String) :
    ∀ (fuel : Nat) (p c : List String), p.Nodup →
      ((schedule deps fuel p c).1.flatten).Nodup := by
  intro fuel
  induction fuel with
  | zero => intro p c _; simp [schedule]
  | succ fuel ih =>
    intro p c hnd
    by_cases hp : p.isEmpty
    · simp [schedule, hp]
    · by_cases hr : (runnableOf deps p c).isEmpty
      · simp [schedule, hp, hr]
      · simp only [schedule, hp, hr, if_false, Bool.false_eq_true, List.flatten_cons]
        apply List.Nodup.append (hnd.filter _) (ih _ _ (hnd.filter _))
        intro x hx hx2
        have hxp := schedule_join_subset deps fuel _ _ x hx2
        have hc := (List.mem_filter.mp hxp).2
        simp only [List.elem_eq_mem, Bool.not_eq_true', decide_eq_false_iff_not] at hc
        exact hc hx

theorem schedule_respects (deps : String → List String) :
    ∀ (fuel : Nat) (p c : List String),
      wavesRespectDeps deps c (schedule deps fuel p c).1 = true := by
  intro fuel
  induction fuel with
  | zero => intro p c; simp [schedule, wavesRespectDeps]
  | succ fuel ih =>
    intro p c
    by_cases hp : p.isEmpty
    · simp [schedule, hp, wavesRespectDeps]
    · by_cases hr : (runnableOf deps p c).isEmpty
      · simp [schedule, hp, hr, wavesRespectDeps]
      · simp only [schedule, hp, hr, if_false, Bool.false_eq_true, wavesRespectDeps,
          Bool.and_eq_true]
        constructor
        · rw [List.all_eq_true]
          intro n hn
          exact (List.mem_filter.mp hn).2
        · exact ih _ _

theorem schedule_perm (deps : String → List String) :
    ∀ (fuel : Nat) (p c : List String), p.length < fuel →
      (schedule deps fuel p c).2 = none →
      List.Perm (schedule deps fuel p c).1.flatten p := by
  intro fuel
  induction fuel with
  | zero => intro p c h; exact absurd h (Nat.not_lt_zero _)
  | succ fuel ih =>
    intro p c hlen hdl
    by_cases hp : p.isEmpty
    · rw [List.isEmpty_iff.mp hp]
      simp [schedule, hp]
    · by_cases hr : (runnableOf deps p c).isEmpty
      · simp [schedule, hp, hr] at hdl
      · have hrne : runnableOf deps p c ≠ [] := fun h => by simp [h] at hr
        have hsub : ∀ x ∈ runnableOf deps p c, x ∈ p :=
          fun x hx => (List.mem_filter.mp hx).1
        have hlt := pending_filter_lt p _ hrne hsub
        have hdl2 : (schedule deps fuel
            (p.filter (fun n => !((runnableOf deps p c).contains n)))
            (c ++ runnableOf deps p c)).2 = none := by
          simpa only [schedule, hp, hr, if_false, Bool.false_eq_true] using hdl
        have hperm := ih _ _ (by omega) hdl2
        simp only [schedule, hp, hr, if_false, Bool.false_eq_true, List.flatten_cons]
        have hcong : p.filter (fun n => !((runnableOf deps p c).contains n))
            = p.filter (fun n => !((deps n).all (fun d => c.contains d))) := by
          apply List.filter_congr
          intro n hn
          congr 1
          by_cases hq : (deps n).all (fun d => c.contains d)
          · rw [hq]
            simp [List.elem_eq_mem]
            exact List.mem_filter.mpr ⟨hn, hq⟩
          · have hq' : ((deps n).all (fun d => c.contains d)) = false := by
              simpa using hq
            rw [hq']
            simp only [List.elem_eq_mem, decide_eq_false_iff_not]
            intro hmem
            exact hq (List.mem_filter.mp hmem).2
        rw [hcong] at hperm ⊢
        exact (hperm.append_left (runnableOf deps p c)).trans
          (List.filter_append_perm _ p)

theorem exists_rank_min (f : String → Nat) :
    ∀ (l : List String), l ≠ [] → ∃ m ∈ l, ∀ x ∈ l, f m ≤ f x := by
  intro l
  induction l with
  | nil => intro h; exact absurd rfl h
  | cons a rest ih =>
    intro _
    rcases eq_or_ne rest [] with hre | hrne
    · subst hre
      exact ⟨a, by simp, by simp⟩
    · obtain ⟨m, hm, hmin⟩ := ih hrne
      by_cases hle : f a ≤ f m
      · refine ⟨a, by simp, ?_⟩
        intro x hx
        rcases List.mem_cons.mp hx with h1 | h2
        · subst h1; exact le_refl _
        · exact le_trans hle (hmin x h2)
      · refine ⟨m, List.mem_cons_of_mem a hm, ?_⟩
        intro x hx
        rcases List.mem_cons.mp hx with h1 | h2
        · subst h1; exact le_of_not_le hle
        · exact hmin x h2

/-- Deadlock freedom for acyclic graphs: when a ranking function strictly
decreases along dependencies and every dependency names a known node, a
non-empty pending set always yields a non-empty runnable set (pick a pending
node of minimal rank; all its predecessors are already completed). -/
theorem runnable_nonempty (deps : String → List String) (rank : String → Nat)
    (nodeIds p c : List String)
    (hacyc : ∀ n d, d ∈ deps n → rank d < rank n)
    (hvalid : ∀ n d, d ∈ deps n → d ∈ nodeIds)
    (hcov : ∀ x ∈ nodeIds, x ∈ p ∨ x ∈ c)
    (hp : p ≠ []) : runnableOf deps p c ≠ [] := by
  obtain ⟨m, hm, hmin⟩ := exists_rank_min rank p hp
  have hmem : m ∈ runnableOf deps p c := by
    rw [runnableOf, List.mem_filter]
    refine ⟨hm, ?_⟩
    rw [List.all_eq_true]
    intro d hd
    have hlt := hacyc m d hd
    have hni := hvalid m d hd
    rcases hcov d hni with hdp | hdc
    · exact absurd (hmin d hdp) (by omega)
    · simp [List.elem_eq_mem, hdc]
  intro hnil
  rw [hnil] at hmem
  simp at hmem

/-- Main loop invariant for valid acyclic graphs: the loop never reaches the
deadlock branch, and when it returns, every node of the workflow carries a
terminal (`COMPLETED` or `FAILED`) status. -/
theorem runLoop_acyclic (ctx : RunCtx) (rank : String → Nat) (nodeIds : List String)
    (hacyc : ∀ n d, d ∈ ctx.deps n → rank d < rank n)
    (hvalid : ∀ n d, d ∈ ctx.deps n → d ∈ nodeIds) :
    ∀ (fuel : Nat) (p c : List String) (res : List (String × Val))
      (recs : String → NodeRec) (w : List (List String)),
      p.length < fuel → p.Nodup →
      (∀ x ∈ nodeIds, x ∈ p ∨ x ∈ c) →
      (∀ x ∈ nodeIds, x ∉ p →
        (recs x).status = .COMPLETED ∨ (recs x).status = .FAILED) →
      (runLoop ctx fuel p c res recs w).deadlocked = none ∧
      ∀ x ∈ nodeIds,
        ((runLoop ctx fuel p c res recs w).recs x).status = .COMPLETED ∨
        ((runLoop ctx fuel p c res recs w).recs x).status = .FAILED := by
  intro fuel
  induction fuel with
  | zero => intro p c res recs w hlen; exact absurd hlen (Nat.not_lt_zero _)
  | succ fuel ih =>
    intro p c res recs w hlen hnd hcov hdone
    by_cases hp : p.isEmpty
    · have hpe : p = [] := List.isEmpty_iff.mp hp
      constructor
      · simp [runLoop, hp]
      · intro x hx
        simp only [runLoop, hp, if_true]
        exact hdone x hx (by simp [hpe])
    · have hpne : p ≠ [] := fun h => by simp [h] at hp
      have hrne : runnableOf ctx.deps p c ≠ [] :=
        runnable_nonempty ctx.deps rank nodeIds p c hacyc hvalid hcov hpne
      have hr : (runnableOf ctx.deps p c).isEmpty = false := by
        rcases h : runnableOf ctx.deps p c with _ | _
        · exact absurd h hrne
        · rfl
      have hstep : runLoop ctx (fuel + 1) p c res recs w =
          runLoop ctx fuel
            (p.filter (fun n => !((runnableOf ctx.deps p c).contains n)))
            (c ++ runnableOf ctx.deps p c)
            (waveResults ctx res (runnableOf ctx.deps p c))
            (waveRecs ctx res recs (runnableOf ctx.deps p c))
            (w ++ [runnableOf ctx.deps p c]) := by
        simp [runLoop, hp, hr]
      rw [hstep]
      apply ih
      · have := pending_filter_lt p _ hrne (fun x hx => (List.mem_filter.mp hx).1)
        omega
      · exact hnd.filter _
      · intro x hx
        rcases hcov x hx with hxp | hxc
        · by_cases hxr : x ∈ runnableOf ctx.deps p c
          · exact Or.inr (List.mem_append_right c hxr)
          · refine Or.inl (List.mem_filter.mpr ⟨hxp, ?_⟩)
            simp [List.elem_eq_mem, hxr]
        · exact Or.inr (List.mem_append_left _ hxc)
      · intro x hx hxp'
        by_cases hxr : x ∈ runnableOf ctx.deps p c
        · have hrnd : (runnableOf ctx.deps p c).Nodup := hnd.filter _
          rw [waveRecs_mem ctx res (runnableOf ctx.deps p c) recs x hrnd hxr]
          exact drainRec_terminal _ _ (nodeOutcome_cases ctx res x)
        · have hxpp : x ∉ p := by
            intro hxp
            apply hxp'
            refine List.mem_filter.mpr ⟨hxp, ?_⟩
            simp [List.elem_eq_mem, hxr]
          rw [waveRecs_notmem ctx res _ recs x hxr]
          exact hdone x hx hxpp

theorem mem_depsOf (edges : List Edge) (n d : String) :
    d ∈ depsOf edges n ↔ ∃ e ∈ edges, e.from_ = d ∧ e.dst = n := by
  simp only [depsOf, List.mem_dedup, List.mem_map, List.mem_filter, beq_iff_eq]
  constructor
  · rintro ⟨e, ⟨he, hdst⟩, hfrom⟩
    exact ⟨e, he, hfrom, hdst⟩
  · rintro ⟨e, he, hfrom, hdst⟩
    exact ⟨e, ⟨he, hdst⟩, hfrom⟩

/-- Helper: when every pending node has a non-empty missing-predecessor list,
the blocked report keeps every pending node, in order. -/
theorem blocked_map_fst (deps : String → List String) (c : List String) :
    ∀ (p : List String),
      (∀ n ∈ p, ((deps n).filter (fun d => !(c.contains d))).isEmpty = false) →
      (blockedOf deps p c).map Prod.fst = p := by
  intro p
  induction p with
  | nil => intro _; rfl
  | cons a rest ih =>
    intro hall
    have ha := hall a (by simp)
    simp only [blockedOf, List.map_cons, List.filter_cons, ha, Bool.not_false, if_true,
      List.map_cons]
    congr 1
    have hrec := ih (fun n hn => hall n (List.mem_cons_of_mem a hn))
    simpa [blockedOf] using hrec

/-- When the runnable set is empty, every pending node has at least one
missing predecessor, so the blocked report lists exactly the pending nodes. -/
theorem blockedOf_all_pending (deps : String → List String) (p c : List String)
    (hr : runnableOf deps p c = []) :
    (blockedOf deps p c).map Prod.fst = p := by
  apply blocked_map_fst
  intro n hn
  rcases hfe : (deps n).filter (fun d => !(c.contains d)) with _ | ⟨d, rest⟩
  · exfalso
    have hmem : n ∈ runnableOf deps p c := by
      rw [runnableOf, List.mem_filter]
      refine ⟨hn, List.all_eq_true.mpr ?_⟩
      intro d hd
      by_cases hcd : c.contains d
      · exact hcd
      · exfalso
        have hdm : d ∈ (deps n).filter (fun x => !(c.contains x)) :=
          List.mem_filter.mpr ⟨hd, by
            simp only [Bool.not_eq_true']
            exact eq_false_of_ne_true hcd⟩
        rw [hfe] at hdm
        simp at hdm
    rw [hr] at hmem
    simp at hmem
  · rfl

theorem blockedOf_missing (deps : String → List String) (p c : List String)
    (pr : String × List String) (hmem : pr ∈ blockedOf deps p c) :
    pr.1 ∈ p ∧ pr.2 = (deps pr.1).filter (fun d => !(c.contains d)) := by
  unfold blockedOf at hmem
  have h1 := (List.mem_filter.mp hmem).1
  obtain ⟨n, hn, heq⟩ := List.mem_map.mp h1
  constructor
  · rw [← heq]
    exact hn
  · rw [← heq]

/-- One dispatch iteration hitting the deadlock branch: the loop returns at
once with the blocked report, no wave is dispatched and no record is
touched. -/
theorem runLoop_deadlock_step (ctx : RunCtx) (fuel : Nat) (p c : List String)
    (res : List (String × Val)) (recs : String → NodeRec)
    (w : List (List String)) (hp : p ≠ [])
    (hr : runnableOf ctx.deps p c = []) :
    runLoop ctx (fuel + 1) p c res recs w =
      { deadlocked := some (blockedOf ctx.deps p c)
        recs := recs, results := res, waves := w } := by
  have hp2 : p.isEmpty = false := by
    rcases h : p with _ | _
    · exact absurd h hp
    · rfl
  simp [runLoop, hp2, hr]

/-! ## Concrete scenarios -/

/-- The spec example workflow (test_dag.py): node A = add-calculator over
[1,2,3,4], node B = multiply-calculator over [5,6], edge A→B. -/
def exampleNodes : List NodeDef :=
  [{ id := "A", agent := some "calculator",
     params := [("operation", Val.vStr "add"),
                ("values", Val.vList [Val.vNum 1, Val.vNum 2, Val.vNum 3, Val.vNum 4])] },
   { id := "B", agent := some "calculator",
     params := [("operation", Val.vStr "multiply"),
                ("values", Val.vList [Val.vNum 5, Val.vNum 6])] }]

def exampleEdges : List Edge := [{ from_ := "A", dst := "B" }]

/-- Both example nodes invoke the registered calculator, whose call through
`AgentWrapper.run` raises `TypeError` (see `calculatorAgentCall`). -/
def exampleCalcBehavior : Behavior := fun _ input _ => calculatorAgentCall input

/-- Agent names registered by main.py (lines 24-27, 92-93). -/
def registeredAgents : List String := ["data_fetcher", "calculator"]

/-- The two-node cycle of the spec: edges A→B and B→A. -/
def cycleNodes : List NodeDef :=
  [{ id := "A", agent := some "calculator", params := [] },
   { id := "B", agent := some "calculator", params := [] }]

def cycleEdges : List Edge :=
  [{ from_ := "A", dst := "B" }, { from_ := "B", dst := "A" }]

/-- Failed-predecessor scenario: A raises, B echoes its whole input mapping
back as its result so the input B received is observable. -/
def failPredNodes : List NodeDef :=
  [{ id := "A", agent := some "calculator", params := [] },
   { id := "B", agent := some "calculator", params := [("p", Val.vNum 7)] }]

def failPredEdges : List Edge := [{ from_ := "A", dst := "B" }]

def failPredBehavior : Behavior := fun n input _ =>
  if n == "A" then .raises "boom" else .ok (Val.vDict input)

def failPredRun : RunOutcome :=
  orchestratorRun { maxConcurrent := 3, maxRetries := 2, timeout := 30 }
    registeredAgents failPredBehavior failPredNodes failPredEdges
    [("seed", Val.vNum 1)]

/-- The error message under which node A of the failed-predecessor scenario
ends up in the shared results table. -/
def failPredMsg : String := "Error in node A: Agent calculator failed: boom"

/-- Agent behavior that fails the first attempt and would succeed on a retry
(the spec scenario with k = 1 < max_retries = 2). -/
def failThenOkBehavior : Behavior := fun _ _ attempt =>
  if attempt == 0 then .raises "transient failure" else .ok (Val.vNum 7)

/-- Five independent nodes, to be dispatched in a single wave. -/
def fiveNodes : List NodeDef :=
  ["n1", "n2", "n3", "n4", "n5"].map
    (fun i => { id := i, agent := some "calculator", params := [] })

/-- A data-fetcher node with no `url` parameter: the agent returns the
`error` mapping normally (no exception). -/
def fetchNodes : List NodeDef :=
  [{ id := "F", agent := some "data_fetcher", params := [] }]

/-- The data fetcher as called through the wrapper: `conf` is the nodes whole
input mapping, `inputs` is `{}` (orchestrator.py lines 44-49). -/
def fetchBehavior : Behavior := fun _ input _ =>
  dataFetcherBody (fun _ => .timesOut) input []

/-! ## Claims -/

/-- C1 (code_bug).  The claim (spec sections 4.4 and 8) says the Node Executor
attempts the agent call up to `max_retries + 1` times with linear backoff and
records `retries = k` for an agent succeeding after `k < max_retries`
failures.  The code has no retry loop at all: `_execute_node` awaits the
wrapper exactly once, never sleeps, and never increments `retries`, even
though `max_retries` is configured (orchestrator.py line 80) and
`execute_agent`s docstring promises "retries".  Conjuncts: (1) every
execution makes at most one attempt, with no backoff waits and `retries = 0`;
(2) at the claims own scenario (failure on attempt 1, success available on
attempt 2, `max_retries = 2`) the node ends `FAILED` after exactly one
attempt with `retries = 0`, where the claim requires `COMPLETED` with
`retries = 1`; (3) the same at the whole-run level with the configuration
`max_retries = 2`. -/
theorem c1_no_retry_single_attempt :
    (∀ (agents : List String) (timeout : Int) (behavior : Behavior)
       (nodeId : String) (nodeDef : NodeDef) (dependsOn : List String)
       (ii res : List (String × Val)),
      (executeNode agents timeout behavior nodeId nodeDef dependsOn ii res).attemptsMade ≤ 1 ∧
      (executeNode agents timeout behavior nodeId nodeDef dependsOn ii res).backoffWaits = [] ∧
      (executeNode agents timeout behavior nodeId nodeDef dependsOn ii res).retries = 0) ∧
    ((executeNode ["calc"] 30 failThenOkBehavior "X"
        { id := "X", agent := some "calc", params := [] } [] [] []).status = .FAILED ∧
     (executeNode ["calc"] 30 failThenOkBehavior "X"
        { id := "X", agent := some "calc", params := [] } [] [] []).retries = 0 ∧
     (executeNode ["calc"] 30 failThenOkBehavior "X"
        { id := "X", agent := some "calc", params := [] } [] [] []).attemptsMade = 1 ∧
     (executeNode ["calc"] 30 failThenOkBehavior "X"
        { id := "X", agent := some "calc", params := [] } [] [] []).backoffWaits = []) ∧
    (((orchestratorRun { maxConcurrent := 3, maxRetries := 2, timeout := 30 } ["calc"]
        failThenOkBehavior [{ id := "X", agent := some "calc", params := [] }] [] []).recs
          "X").status = .FAILED ∧
     ((orchestratorRun { maxConcurrent := 3, maxRetries := 2, timeout := 30 } ["calc"]
        failThenOkBehavior [{ id := "X", agent := some "calc", params := [] }] [] []).recs
          "X").retries = 0) := by
  refine ⟨?_, by decide, by decide⟩
  intro agents timeout behavior nodeId nodeDef dependsOn ii res
  simp only [executeNode]
  repeat' split
  all_goals simp

/-- C4 (code_bug).  The claim (the specs example scenario) says A completes
with result 10, B completes with result 30 and the run status is Completed.
On the code, both nodes fail: `Calculator.run` declares `run(self, inputs)`
while `AgentWrapper.run` calls `agent.run(conf=..., inputs=..., ctx=...)`, so
every calculator invocation raises `TypeError` before the body runs —
`Calculator` violates the `AgentBase.run(conf, inputs, ctx)` contract it
subclasses.  Only the run-level status `COMPLETED` of the claim holds; both
node records end `FAILED` with no result (B still dispatched in the second
wave, after A drained). -/
theorem c4_example_workflow_divergence :
    (executeWorkflow { maxConcurrent := 3, maxRetries := 2, timeout := 30 }
      registeredAgents exampleCalcBehavior exampleNodes exampleEdges []).1 = "COMPLETED" ∧
    ((executeWorkflow { maxConcurrent := 3, maxRetries := 2, timeout := 30 }
      registeredAgents exampleCalcBehavior exampleNodes exampleEdges []).2.recs "A").status
        = .FAILED ∧
    ((executeWorkflow { maxConcurrent := 3, maxRetries := 2, timeout := 30 }
      registeredAgents exampleCalcBehavior exampleNodes exampleEdges []).2.recs "A").result
        = none ∧
    ((executeWorkflow { maxConcurrent := 3, maxRetries := 2, timeout := 30 }
      registeredAgents exampleCalcBehavior exampleNodes exampleEdges []).2.recs "B").status
        = .FAILED ∧
    ((executeWorkflow { maxConcurrent := 3, maxRetries := 2, timeout := 30 }
      registeredAgents exampleCalcBehavior exampleNodes exampleEdges []).2.recs "B").result
        = none ∧
    (executeWorkflow { maxConcurrent := 3, maxRetries := 2, timeout := 30 }
      registeredAgents exampleCalcBehavior exampleNodes exampleEdges []).2.waves
        = [["A"], ["B"]] := by
  exact ⟨rfl, rfl, rfl, rfl, rfl, rfl⟩

/-- C8 (confirmed).  The Agent Invocation Wrapper maps an agent exception to
`Agent {name} failed: {cause}` (carrying the cause), a timeout to
`Agent {name} timed out after {timeout} seconds`, passes results through
unchanged, and makes exactly one underlying call per invocation (no retry —
`wrapperAttempts` is 1 whatever the outcome).  A timed-out call is one failed
attempt for the executor: the node fails after exactly one attempt. -/
theorem c8_wrapper_contract :
    (∀ (name : String) (t : Int) (v : Val),
      agentWrapperRun name t (.ok v) = .ok v) ∧
    (∀ (name : String) (t : Int) (m : String),
      agentWrapperRun name t (.raises m)
        = .error ("Agent " ++ name ++ " failed: " ++ m)) ∧
    (∀ (name : String) (t : Int),
      agentWrapperRun name t .timesOut
        = .error ("Agent " ++ name ++ " timed out after " ++ toString t ++ " seconds")) ∧
    (∀ outcome : CallOutcome, wrapperAttempts outcome = 1) ∧
    ((executeNode ["calc"] 30 (fun _ _ _ => .timesOut) "X"
        { id := "X", agent := some "calc", params := [] } [] [] []).status = .FAILED ∧
     (executeNode ["calc"] 30 (fun _ _ _ => .timesOut) "X"
        { id := "X", agent := some "calc", params := [] } [] [] []).attemptsMade = 1 ∧
     (executeNode ["calc"] 30 (fun _ _ _ => .timesOut) "X"
        { id := "X", agent := some "calc", params := [] } [] [] []).error
          = some "Agent calc timed out after 30 seconds") := by
  exact ⟨fun _ _ _ => rfl, fun _ _ _ => rfl, fun _ _ => rfl, fun _ => rfl,
    rfl, rfl, rfl⟩

/-- C2 (confirmed).  When the runnable set is empty while pending nodes
remain, `Orchestrator.run` raises at once: the loop returns the deadlock
report without dispatching anything or touching any record; the report pairs
every pending node with its missing predecessors.  For the two-node cycle
A→B, B→A the very first wave deadlocks: the report lists A waiting for B and
B waiting for A, no wave is dispatched, and both records still sit at
`PENDING` — for every possible agent behavior, i.e. no agent was invoked. -/
theorem c2_deadlock_abort :
    (∀ (ctx : RunCtx) (fuel : Nat) (p c : List String)
       (res : List (String × Val)) (recs : String → NodeRec)
       (w : List (List String)),
      p ≠ [] → runnableOf ctx.deps p c = [] →
      runLoop ctx (fuel + 1) p c res recs w =
        { deadlocked := some (blockedOf ctx.deps p c)
          recs := recs, results := res, waves := w }) ∧
    (∀ (deps : String → List String) (p c : List String),
      runnableOf deps p c = [] →
      (blockedOf deps p c).map Prod.fst = p) ∧
    (∀ (deps : String → List String) (p c : List String)
       (pr : String × List String),
      pr ∈ blockedOf deps p c →
      pr.1 ∈ p ∧ pr.2 = (deps pr.1).filter (fun d => !(c.contains d))) ∧
    (∀ (cfg : OrchConfig) (behavior : Behavior),
      (orchestratorRun cfg registeredAgents behavior cycleNodes cycleEdges []).deadlocked
        = some [("A", ["B"]), ("B", ["A"])] ∧
      (orchestratorRun cfg registeredAgents behavior cycleNodes cycleEdges []).waves = [] ∧
      ((orchestratorRun cfg registeredAgents behavior cycleNodes cycleEdges []).recs "A").status
        = .PENDING ∧
      ((orchestratorRun cfg registeredAgents behavior cycleNodes cycleEdges []).recs "B").status
        = .PENDING) := by
  refine ⟨runLoop_deadlock_step, blockedOf_all_pending,
    fun deps p c pr hmem => blockedOf_missing deps p c pr hmem,
    fun cfg behavior => ⟨rfl, rfl, rfl, rfl⟩⟩

theorem c2_deadlock_abort_witness :
    runLoop
      { agents := registeredAgents, timeout := 30
        behavior := fun _ _ _ => CallOutcome.timesOut
        nodeOf := fun _ => none, deps := depsOf cycleEdges, initialInputs := [] }
      1 ["A", "B"] [] [] (initRecs (depsOf cycleEdges)) [] =
      { deadlocked := some (blockedOf (depsOf cycleEdges) ["A", "B"] [])
        recs := initRecs (depsOf cycleEdges), results := [], waves := [] } ∧
    (blockedOf (depsOf cycleEdges) ["A", "B"] []).map Prod.fst = ["A", "B"] := by
  constructor
  · exact c2_deadlock_abort.1
      { agents := registeredAgents, timeout := 30
        behavior := fun _ _ _ => CallOutcome.timesOut
        nodeOf := fun _ => none, deps := depsOf cycleEdges, initialInputs := [] }
      0 ["A", "B"] [] [] (initRecs (depsOf cycleEdges)) [] (by simp) (by decide)
  · exact c2_deadlock_abort.2.1 (depsOf cycleEdges) ["A", "B"] [] (by decide)

/-- C3 counterexample.  The claim says a dependent of a failed predecessor
proceeds "with no output for that predecessor (its input key silently
missing)".  On the code the key is present: when A fails, the drain loop of
`Orchestrator.run` stores the error mapping under A in `results`
(line 212), and `_execute_node` of B binds key A to that mapping (line 251).
Concretely, B — whose agent echoes its whole input mapping as its result —
completes with an input that does contain key A, bound to the error
mapping. -/
theorem c3_failed_pred_key_present :
    (failPredRun.recs "B").result
      = some (Val.vDict
          [("seed", Val.vNum 1),
           ("A", Val.vDict [("error", Val.vStr failPredMsg)]),
           ("p", Val.vNum 7)]) ∧
    (dictGet
        [("seed", Val.vNum 1),
         ("A", Val.vDict [("error", Val.vStr failPredMsg)]),
         ("p", Val.vNum 7)] "A").isSome = true := by
  exact ⟨rfl, rfl⟩

/-- C3 (corrected).  Amended claim: the input mapping is built as a copy of
the runs initial inputs (1); every predecessor id present in the results
table is bound to that entry, unwrapping one level when it is a
result-envelope ((2) and (3)); the nodes static parameters are overlaid last
and win on key collision (4).  A FAILED predecessor is also present in
`results` — as an error mapping carrying the raised message (5) — so the
dependent
proceeds with the predecessor key bound to that error mapping rather than
with the key silently missing (6). -/
theorem c3_input_mapping_amended :
    (∀ (ii : List (String × Val)) (deps : List String)
       (res params : List (String × Val)) (k : String),
      (∀ p ∈ params, p.1 ≠ k) → (∀ d ∈ deps, d ≠ k) →
      dictGet (buildInput ii deps res params) k = dictGet ii k) ∧
    (∀ (ii : List (String × Val)) (deps : List String)
       (res params : List (String × Val)) (d : String)
       (kvs : List (String × Val)) (inner : Val),
      deps.Nodup → d ∈ deps → dictGet res d = some (Val.vDict kvs) →
      dictGet kvs "result" = some inner → (∀ p ∈ params, p.1 ≠ d) →
      dictGet (buildInput ii deps res params) d = some inner) ∧
    (∀ (ii : List (String × Val)) (deps : List String)
       (res params : List (String × Val)) (d : String) (w : Val),
      deps.Nodup → d ∈ deps → dictGet res d = some w →
      (∀ p ∈ params, p.1 ≠ d) →
      dictGet (buildInput ii deps res params) d = some (unwrapResult w)) ∧
    (∀ (ii : List (String × Val)) (deps : List String)
       (res params : List (String × Val)) (k : String) (v : Val),
      (params.map Prod.fst).Nodup → (k, v) ∈ params →
      dictGet (buildInput ii deps res params) k = some v) ∧
    (∀ (o : ExecOutcome) (m : String), o.ret = Except.error m →
      drainResult o = Val.vDict [("error", Val.vStr m)]) ∧
    ((failPredRun.recs "B").result
      = some (Val.vDict
          [("seed", Val.vNum 1),
           ("A", Val.vDict [("error", Val.vStr failPredMsg)]),
           ("p", Val.vNum 7)]) ∧
     dictGet
        [("seed", Val.vNum 1),
         ("A", Val.vDict [("error", Val.vStr failPredMsg)]),
         ("p", Val.vNum 7)] "A"
       = some (Val.vDict [("error", Val.vStr failPredMsg)])) := by
  refine ⟨?_, ?_, ?_, ?_, ?_, rfl, rfl⟩
  · intro ii deps res params k hparams hdeps
    unfold buildInput
    rw [dictGet_update_notmem _ _ _ hparams]
    exact foldl_depBind_notmem res deps ii k hdeps
  · intro ii deps res params d kvs inner hnd hmem hres hinner hparams
    unfold buildInput
    rw [dictGet_update_notmem _ _ _ hparams]
    rw [foldl_depBind_hit res deps ii d _ hnd hmem hres]
    simp [unwrapResult, hinner]
  · intro ii deps res params d w hnd hmem hres hparams
    unfold buildInput
    rw [dictGet_update_notmem _ _ _ hparams]
    exact foldl_depBind_hit res deps ii d w hnd hmem hres
  · intro ii deps res params k v hnd hmem
    unfold buildInput
    exact dictGet_update_mem _ _ _ _ hnd hmem
  · intro o m hret
    unfold drainResult
    rw [hret]

theorem c3_input_mapping_amended_witness :
    dictGet
        (buildInput [] ["A"] [("A", Val.vDict [("result", Val.vNum 10)])] [])
        "A" = some (Val.vNum 10) ∧
    dictGet
        (buildInput [("k", Val.vNum 1)] [] [] [("k", Val.vNum 2)]) "k"
      = some (Val.vNum 2) := by
  constructor
  · exact c3_input_mapping_amended.2.1 [] ["A"]
      [("A", Val.vDict [("result", Val.vNum 10)])] [] "A"
      [("result", Val.vNum 10)] (Val.vNum 10)
      (by decide) (by decide) rfl rfl (by simp)
  · exact c3_input_mapping_amended.2.2.2.1 [("k", Val.vNum 1)] [] []
      [("k", Val.vNum 2)] "k" (Val.vNum 2) (by decide) (by simp)

/-- C5 (confirmed).  (a) The wave trace of a run is `w ++ schedule(...)`, a
pure function of the dependency relation and the pending/completed
bookkeeping alone — the agents outcomes, the results table and the record
table cannot influence which waves are dispatched, because the drain loop
moves every finished node from `pending` to `completed` whether it succeeded
or failed.  (b) Cross-wave barrier: every node of a wave has all of its
predecessors among the nodes finished in strictly earlier waves (plus the
initially completed set); no node is considered before that.  (c) When no
deadlock occurs the dispatched waves are exactly a partition of the pending
set: every pending node finishes in exactly one wave. -/
theorem c5_wave_barrier :
    (∀ (ctx : RunCtx) (fuel : Nat) (p c : List String)
       (res : List (String × Val)) (recs : String → NodeRec)
       (w : List (List String)),
      (runLoop ctx fuel p c res recs w).waves
        = w ++ (schedule ctx.deps fuel p c).1) ∧
    (∀ (deps : String → List String) (fuel : Nat) (p c : List String),
      wavesRespectDeps deps c (schedule deps fuel p c).1 = true) ∧
    (∀ (deps : String → List String) (fuel : Nat) (p c : List String),
      p.length < fuel → (schedule deps fuel p c).2 = none →
      List.Perm (schedule deps fuel p c).1.flatten p) := by
  exact ⟨fun ctx fuel p c res recs w => (runLoop_sched ctx fuel p c res recs w).1,
    schedule_respects, schedule_perm⟩

theorem c5_wave_barrier_witness :
    List.Perm (schedule (depsOf failPredEdges) 3 ["A", "B"] []).1.flatten
      ["A", "B"] ∧
    wavesRespectDeps (depsOf failPredEdges) []
      (schedule (depsOf failPredEdges) 3 ["A", "B"] []).1 = true := by
  constructor
  · exact c5_wave_barrier.2.2 (depsOf failPredEdges) 3 ["A", "B"] []
      (by decide) (by decide)
  · exact c5_wave_barrier.2.1 (depsOf failPredEdges) 3 ["A", "B"] []

/-- C6 (confirmed).  `execute_workflow` sets the run status to `COMPLETED`
exactly when `Orchestrator.run` returned (all nodes drained, however many
failed) and to `FAILED` exactly when the run-level execution raised (the
deadlock exception is the only run-level raise in the model).  Concretely: a
run whose node A failed still reports `COMPLETED`, while the cyclic workflow
reports `FAILED`. -/
theorem c6_run_status_policy :
    (∀ (cfg : OrchConfig) (agents : List String) (behavior : Behavior)
       (nodes : List NodeDef) (edges : List Edge) (ii : List (String × Val)),
      (executeWorkflow cfg agents behavior nodes edges ii).1
        = (if (orchestratorRun cfg agents behavior nodes edges ii).deadlocked.isSome
           then "FAILED" else "COMPLETED")) ∧
    ((executeWorkflow { maxConcurrent := 3, maxRetries := 2, timeout := 30 }
        registeredAgents failPredBehavior failPredNodes failPredEdges
        [("seed", Val.vNum 1)]).1 = "COMPLETED" ∧
     ((executeWorkflow { maxConcurrent := 3, maxRetries := 2, timeout := 30 }
        registeredAgents failPredBehavior failPredNodes failPredEdges
        [("seed", Val.vNum 1)]).2.recs "A").status = .FAILED) ∧
    (executeWorkflow { maxConcurrent := 3, maxRetries := 2, timeout := 30 }
        registeredAgents failPredBehavior cycleNodes cycleEdges []).1 = "FAILED" := by
  exact ⟨fun _ _ _ _ _ _ => rfl, ⟨rfl, rfl⟩, rfl⟩

/-- C7 (confirmed).  For a valid acyclic graph (a ranking function strictly
increases along every edge, and every edge source names a node of the
workflow): the run never deadlocks and every nodes final status is
`COMPLETED` or `FAILED` — none is left `PENDING` or `RUNNING` (1, 2).  No
node is ever dispatched twice: the concatenation of all dispatched waves has
no duplicates, so exactly one executor task writes each record (3).  Every
executor writes its records statuses monotonically along
`PENDING → RUNNING → COMPLETED or FAILED` (the drain loops extra
`FAILED` write repeats the terminal status) (4). -/
theorem c7_node_lifecycle (rank : String → Nat) (cfg : OrchConfig)
    (agents : List String) (behavior : Behavior) (nodes : List NodeDef)
    (edges : List Edge) (ii : List (String × Val))
    (hacyc : ∀ e ∈ edges, rank e.from_ < rank e.dst)
    (hvalid : ∀ e ∈ edges, e.from_ ∈ nodes.map NodeDef.id) :
    (orchestratorRun cfg agents behavior nodes edges ii).deadlocked = none ∧
    (∀ x ∈ nodes.map NodeDef.id,
      ((orchestratorRun cfg agents behavior nodes edges ii).recs x).status = .COMPLETED ∨
      ((orchestratorRun cfg agents behavior nodes edges ii).recs x).status = .FAILED) ∧
    ((orchestratorRun cfg agents behavior nodes edges ii).waves.flatten).Nodup ∧
    (∀ (agents2 : List String) (timeout : Int) (behavior2 : Behavior)
       (nodeId : String) (nodeDef : NodeDef) (dependsOn : List String)
       (ii2 res2 : List (String × Val)),
      List.Chain' (fun a b => statusStep a b = true)
        (execStatusHistory
          (executeNode agents2 timeout behavior2 nodeId nodeDef dependsOn ii2 res2))) := by
  have hacyc2 : ∀ n d, d ∈ depsOf edges n → rank d < rank n := by
    intro n d hd
    obtain ⟨e, he, hfrom, hdst⟩ := (mem_depsOf edges n d).mp hd
    have := hacyc e he
    rw [hfrom, hdst] at this
    exact this
  have hvalid2 : ∀ n d, d ∈ depsOf edges n → d ∈ (nodes.map NodeDef.id).dedup := by
    intro n d hd
    obtain ⟨e, he, hfrom, hdst⟩ := (mem_depsOf edges n d).mp hd
    rw [List.mem_dedup, ← hfrom]
    exact hvalid e he
  have hmain := runLoop_acyclic
    { agents := agents, timeout := cfg.timeout, behavior := behavior
      nodeOf := fun i => (nodes.reverse).find? (fun nd => nd.id == i)
      deps := depsOf edges, initialInputs := ii }
    rank ((nodes.map NodeDef.id).dedup) hacyc2 hvalid2
    ((nodes.map NodeDef.id).dedup.length + 1)
    ((nodes.map NodeDef.id).dedup) [] [] (initRecs (depsOf edges)) []
    (by omega) (List.nodup_dedup _)
    (fun x hx => Or.inl hx)
    (fun x hx hnx => absurd hx hnx)
  refine ⟨hmain.1, ?_, ?_, ?_⟩
  · intro x hx
    exact hmain.2 x (List.mem_dedup.mpr hx)
  · have hw := (runLoop_sched
      { agents := agents, timeout := cfg.timeout, behavior := behavior
        nodeOf := fun i => (nodes.reverse).find? (fun nd => nd.id == i)
        deps := depsOf edges, initialInputs := ii }
      ((nodes.map NodeDef.id).dedup.length + 1)
      ((nodes.map NodeDef.id).dedup) [] [] (initRecs (depsOf edges)) []).1
    show ((runLoop _ _ _ _ _ _ _).waves).flatten.Nodup
    rw [hw]
    simp only [List.nil_append]
    exact schedule_join_nodup (depsOf edges) _ _ _ (List.nodup_dedup _)
  · intro agents2 timeout behavior2 nodeId nodeDef dependsOn ii2 res2
    simp only [executeNode]
    repeat' split
    all_goals simp [execStatusHistory, statusStep]

theorem c7_node_lifecycle_witness :
    (orchestratorRun { maxConcurrent := 3, maxRetries := 2, timeout := 30 }
      registeredAgents failPredBehavior failPredNodes failPredEdges
      [("seed", Val.vNum 1)]).deadlocked = none ∧
    (((orchestratorRun { maxConcurrent := 3, maxRetries := 2, timeout := 30 }
      registeredAgents failPredBehavior failPredNodes failPredEdges
      [("seed", Val.vNum 1)]).recs "A").status = .COMPLETED ∨
     ((orchestratorRun { maxConcurrent := 3, maxRetries := 2, timeout := 30 }
      registeredAgents failPredBehavior failPredNodes failPredEdges
      [("seed", Val.vNum 1)]).recs "A").status = .FAILED) ∧
    ((orchestratorRun { maxConcurrent := 3, maxRetries := 2, timeout := 30 }
      registeredAgents failPredBehavior failPredNodes failPredEdges
      [("seed", Val.vNum 1)]).waves.flatten).Nodup ∧
    List.Chain' (fun a b => statusStep a b = true)
      (execStatusHistory
        (executeNode ["calc"] 30 failThenOkBehavior "X"
          { id := "X", agent := some "calc", params := [] } [] [] [])) := by
  have h := c7_node_lifecycle (fun n => if n == "B" then 1 else 0)
    { maxConcurrent := 3, maxRetries := 2, timeout := 30 }
    registeredAgents failPredBehavior failPredNodes failPredEdges
    [("seed", Val.vNum 1)]
    (by
      intro e he
      simp only [failPredEdges, List.mem_singleton] at he
      subst he
      decide)
    (by
      intro e he
      simp only [failPredEdges, List.mem_singleton] at he
      subst he
      decide)
  exact ⟨h.1, h.2.1 "A" (by decide), h.2.2.1,
    h.2.2.2 ["calc"] 30 failThenOkBehavior "X"
      { id := "X", agent := some "calc", params := [] } [] [] []⟩

/-- C9 (confirmed).  `max_concurrent` only ever reaches the
`asyncio.Semaphore` built in `__init__`; the semaphore is never acquired, so
the run outcome — records, results, waves, everything — is the same function
for every `max_concurrent` value (i).  Each dispatch launches one task per
runnable node, i.e. every wave is the entire runnable set (ii, iii), and
concretely five simultaneously runnable nodes are all launched in one wave
although `max_concurrent = 3` (iv). -/
theorem c9_concurrency_unenforced :
    (∀ (m1 m2 r : Nat) (t : Int) (agents : List String) (behavior : Behavior)
       (nodes : List NodeDef) (edges : List Edge) (ii : List (String × Val)),
      orchestratorRun { maxConcurrent := m1, maxRetries := r, timeout := t }
          agents behavior nodes edges ii
        = orchestratorRun { maxConcurrent := m2, maxRetries := r, timeout := t }
          agents behavior nodes edges ii) ∧
    (∀ cfg : OrchConfig,
      (orchestratorInit cfg).semaphoreCapacity = cfg.maxConcurrent) ∧
    (∀ (deps : String → List String) (fuel : Nat) (p c : List String),
      p.isEmpty = false → (runnableOf deps p c).isEmpty = false →
      (schedule deps (fuel + 1) p c).1.head? = some (runnableOf deps p c)) ∧
    ((orchestratorRun { maxConcurrent := 3, maxRetries := 2, timeout := 30 }
        registeredAgents (fun _ _ _ => .ok Val.vNull) fiveNodes [] []).waves
      = [["n1", "n2", "n3", "n4", "n5"]]) := by
  refine ⟨fun _ _ _ _ _ _ _ _ _ => rfl, fun _ => rfl, ?_, rfl⟩
  intro deps fuel p c hp hr
  simp [schedule, hp, hr]

theorem c9_concurrency_unenforced_witness :
    (schedule (depsOf []) 6 ["n1", "n2", "n3", "n4", "n5"] []).1.head?
      = some (runnableOf (depsOf []) ["n1", "n2", "n3", "n4", "n5"] []) := by
  exact c9_concurrency_unenforced.2.2.1 (depsOf []) 5
    ["n1", "n2", "n3", "n4", "n5"] [] (by decide) (by decide)

/-- C10 (confirmed).  A node is marked `COMPLETED` — with the returned
mapping stored as its result — whenever the agent call returns normally,
even when that mapping holds nothing but an `error` key; `FAILED` happens
exactly when the call raises or times out ((i)-(iii)).  The bundled agents
do return plain `error` mappings on invalid input: the data fetcher without
a (truthy) `url` (iv), the chart generator when no input value carries the
configured key — with the empty `inputs` the wrapper always passes, that is
always (v) — and the calculator body on a missing/falsy operation (vi).
Run-level: a url-less data-fetcher node completes with the error mapping as
its recorded result (vii). -/
theorem c10_error_mapping_completed :
    (∀ (agents : List String) (t : Int) (behavior : Behavior) (n : String)
       (nd : NodeDef) (dOn : List String) (ii res : List (String × Val))
       (a : String) (v : Val),
      nd.agent = some a → (a == "") = false → agents.contains a = true →
      behavior n (buildInput ii dOn res nd.params) 0 = .ok v →
      (executeNode agents t behavior n nd dOn ii res).status = .COMPLETED ∧
      (executeNode agents t behavior n nd dOn ii res).result = some v ∧
      (executeNode agents t behavior n nd dOn ii res).error = none) ∧
    (∀ (agents : List String) (t : Int) (behavior : Behavior) (n : String)
       (nd : NodeDef) (dOn : List String) (ii res : List (String × Val))
       (a m : String),
      nd.agent = some a → (a == "") = false → agents.contains a = true →
      behavior n (buildInput ii dOn res nd.params) 0 = .raises m →
      (executeNode agents t behavior n nd dOn ii res).status = .FAILED ∧
      (executeNode agents t behavior n nd dOn ii res).result = none) ∧
    (∀ (agents : List String) (t : Int) (behavior : Behavior) (n : String)
       (nd : NodeDef) (dOn : List String) (ii res : List (String × Val))
       (a : String),
      nd.agent = some a → (a == "") = false → agents.contains a = true →
      behavior n (buildInput ii dOn res nd.params) 0 = .timesOut →
      (executeNode agents t behavior n nd dOn ii res).status = .FAILED ∧
      (executeNode agents t behavior n nd dOn ii res).result = none) ∧
    (∀ (http : String → CallOutcome) (conf inputs : List (String × Val)),
      valTruthy ((dictGet conf "url").getD Val.vNull) = false →
      dataFetcherBody http conf inputs
        = .ok (Val.vDict [("error", Val.vStr "missing url")])) ∧
    (∀ (render : ℚ → CallOutcome) (conf : List (String × Val)),
      chartGeneratorBody render conf []
        = .ok (Val.vDict [("error", Val.vStr "input key not found")])) ∧
    (calculatorBody [("parent", Val.vStr "p"), ("p", Val.vDict [])]
      = .ok (Val.vDict [("error", Val.vStr "Missing or invalid operation/values")])) ∧
    (((orchestratorRun { maxConcurrent := 3, maxRetries := 2, timeout := 30 }
        registeredAgents fetchBehavior fetchNodes [] []).recs "F").status
          = .COMPLETED ∧
     ((orchestratorRun { maxConcurrent := 3, maxRetries := 2, timeout := 30 }
        registeredAgents fetchBehavior fetchNodes [] []).recs "F").result
          = some (Val.vDict [("error", Val.vStr "missing url")])) := by
  refine ⟨?_, ?_, ?_, ?_, ?_, rfl, rfl, rfl⟩
  · intro agents t behavior n nd dOn ii res a v ha h1 h2 hb
    have h3 : a ∈ agents := by simpa [List.elem_eq_mem] using h2
    simp [executeNode, ha, h1, h3, hb, agentWrapperRun]
  · intro agents t behavior n nd dOn ii res a m ha h1 h2 hb
    have h3 : a ∈ agents := by simpa [List.elem_eq_mem] using h2
    simp [executeNode, ha, h1, h3, hb, agentWrapperRun]
  · intro agents t behavior n nd dOn ii res a ha h1 h2 hb
    have h3 : a ∈ agents := by simpa [List.elem_eq_mem] using h2
    simp [executeNode, ha, h1, h3, hb, agentWrapperRun]
  · intro http conf inputs h
    simp [dataFetcherBody, h]
  · intro render conf
    unfold chartGeneratorBody
    cases h : (dictGet conf "input_key").getD (Val.vStr "result") <;> simp

theorem c10_error_mapping_completed_witness :
    (executeNode ["data_fetcher"] 30
        (fun _ _ _ => .ok (Val.vDict [("error", Val.vStr "missing url")])) "F"
        { id := "F", agent := some "data_fetcher", params := [] } [] [] []).status
      = .COMPLETED ∧
    (executeNode ["data_fetcher"] 30
        (fun _ _ _ => .ok (Val.vDict [("error", Val.vStr "missing url")])) "F"
        { id := "F", agent := some "data_fetcher", params := [] } [] [] []).result
      = some (Val.vDict [("error", Val.vStr "missing url")]) := by
  have h := c10_error_mapping_completed.1 ["data_fetcher"] 30
    (fun _ _ _ => .ok (Val.vDict [("error", Val.vStr "missing url")])) "F"
    { id := "F", agent := some "data_fetcher", params := [] } [] [] []
    "data_fetcher" (Val.vDict [("error", Val.vStr "missing url")])
    rfl (by decide) (by decide) rfl
  exact ⟨h.1, h.2.1⟩
